import Mathlib

/-!
Verification of the user-management data-access layer in
`src/server/db/db.py` (class `DatabaseManager`).

The Python module is embedded shallowly:

* `hashlib.pbkdf2_hmac with sha256, password, salt, 100000` is embedded as an
  executable PBKDF2-HMAC-SHA256 over byte lists (`List Nat`, each byte `< 256`,
  32-bit words as `Nat` reduced modulo `2 ^ 32`).
* The SQLite database owned by `DatabaseManager` is embedded as an explicit
  record `DbState` of table contents; each method becomes a function from the
  old state (plus the nondeterministic inputs the method draws: the current
  clock value, the generated salt or session token) to the new state and the
  return value of the method.  A statement that SQLite rejects with an error that
  the Python code does not catch is modelled with `Except`.
-/

/-! ## Bytes, 32-bit words and SHA-256 (`hashlib` internals used by the code) -/

/-- Reduce to a 32-bit word: SHA-256 arithmetic is modulo `2 ^ 32`. -/
def w32 (n : Nat) : Nat := n % 4294967296

/-- Right rotation of a 32-bit word by `n` places. -/
def rotr32 (x n : Nat) : Nat := w32 ((x >>> n) ||| (x <<< (32 - n)))

/-- SHA-256 Σ₀. -/
def bigSigma0 (x : Nat) : Nat := rotr32 x 2 ^^^ rotr32 x 13 ^^^ rotr32 x 22

/-- SHA-256 Σ₁. -/
def bigSigma1 (x : Nat) : Nat := rotr32 x 6 ^^^ rotr32 x 11 ^^^ rotr32 x 25

/-- SHA-256 σ₀. -/
def smallSigma0 (x : Nat) : Nat := rotr32 x 7 ^^^ rotr32 x 18 ^^^ (x >>> 3)

/-- SHA-256 σ₁. -/
def smallSigma1 (x : Nat) : Nat := rotr32 x 17 ^^^ rotr32 x 19 ^^^ (x >>> 10)

/-- SHA-256 Ch; the complement of `e` is `e ^^^ 0xffffffff` on 32-bit words. -/
def chWord (e f g : Nat) : Nat := (e &&& f) ^^^ ((e ^^^ 4294967295) &&& g)

/-- SHA-256 Maj. -/
def majWord (a b c : Nat) : Nat := (a &&& b) ^^^ (a &&& c) ^^^ (b &&& c)

/-- The eight 32-bit words of SHA-256 working state. -/
structure Hash8 where
  a : Nat
  b : Nat
  c : Nat
  d : Nat
  e : Nat
  f : Nat
  g : Nat
  h : Nat
deriving DecidableEq

/-- SHA-256 round constants. -/
def shaK : List Nat :=
  [1116352408, 1899447441, 3049323471, 3921009573,
   961987163, 1508970993, 2453635748, 2870763221,
   3624381080, 310598401, 607225278, 1426881987,
   1925078388, 2162078206, 2614888103, 3248222580,
   3835390401, 4022224774, 264347078, 604807628,
   770255983, 1249150122, 1555081692, 1996064986,
   2554220882, 2821834349, 2952996808, 3210313671,
   3336571891, 3584528711, 113926993, 338241895,
   666307205, 773529912, 1294757372, 1396182291,
   1695183700, 1986661051, 2177026350, 2456956037,
   2730485921, 2820302411, 3259730800, 3345764771,
   3516065817, 3600352804, 4094571909, 275423344,
   430227734, 506948616, 659060556, 883997877,
   958139571, 1322822218, 1537002063, 1747873779,
   1955562222, 2024104815, 2227730452, 2361852424,
   2428436474, 2756734187, 3204031479, 3329325298]

/-- SHA-256 initial hash value. -/
def shaH0 : Hash8 :=
  ⟨1779033703, 3144134277, 1013904242, 2773480762,
   1359893119, 2600822924, 528734635, 1541459225⟩

/-- One SHA-256 compression round with constant `kt` and schedule word `wt`. -/
def shaRound (s : Hash8) (kt wt : Nat) : Hash8 :=
  let t1 := w32 (s.h + bigSigma1 s.e + chWord s.e s.f s.g + kt + wt)
  let t2 := w32 (bigSigma0 s.a + majWord s.a s.b s.c)
  ⟨w32 (t1 + t2), s.a, s.b, s.c, w32 (s.d + t1), s.e, s.f, s.g⟩

/-- Extend the 16-word message schedule by `fuel` further words. -/
def extendW : Nat → List Nat → List Nat
  | 0, ws => ws
  | fuel + 1, ws =>
      let len := ws.length
      let wt := w32 (smallSigma1 (ws.getD (len - 2) 0) + ws.getD (len - 7) 0 +
                     smallSigma0 (ws.getD (len - 15) 0) + ws.getD (len - 16) 0)
      extendW fuel (ws ++ [wt])

/-- Big-endian 4-byte groups to 32-bit words. -/
def toWordsBE : List Nat → List Nat
  | b0 :: b1 :: b2 :: b3 :: rest =>
      (((b0 * 256 + b1) * 256 + b2) * 256 + b3) :: toWordsBE rest
  | _ => []

/-- SHA-256 compression of one 64-byte block into the chaining value. -/
def shaCompress (h0 : Hash8) (block : List Nat) : Hash8 :=
  let ws := extendW 48 (toWordsBE block)
  let s := (shaK.zip ws).foldl (fun s p => shaRound s p.1 p.2) h0
  ⟨w32 (h0.a + s.a), w32 (h0.b + s.b), w32 (h0.c + s.c), w32 (h0.d + s.d),
   w32 (h0.e + s.e), w32 (h0.f + s.f), w32 (h0.g + s.g), w32 (h0.h + s.h)⟩

/-- 64-bit big-endian encoding of a length in bits. -/
def be64 (n : Nat) : List Nat :=
  [(n >>> 56) % 256, (n >>> 48) % 256, (n >>> 40) % 256, (n >>> 32) % 256,
   (n >>> 24) % 256, (n >>> 16) % 256, (n >>> 8) % 256, n % 256]

/-- SHA-256 padding: a `0x80` byte, zeros to 56 mod 64, then the bit length. -/
def shaPad (msg : List Nat) : List Nat :=
  let r := (msg.length + 1) % 64
  msg ++ [128] ++ List.replicate ((120 - r) % 64) 0 ++ be64 (msg.length * 8)

/-- Split a byte list into 64-byte blocks. -/
def chunks64 (l : List Nat) : List (List Nat) :=
  if h : l = [] then [] else l.take 64 :: chunks64 (l.drop 64)
termination_by l.length
decreasing_by
  have hpos : 0 < l.length := List.length_pos.mpr h
  simp only [List.length_drop]
  omega

/-- Big-endian bytes of one 32-bit word. -/
def wordBytesBE (w : Nat) : List Nat :=
  [(w >>> 24) % 256, (w >>> 16) % 256, (w >>> 8) % 256, w % 256]

/-- The 32 digest bytes of a final SHA-256 state. -/
def hash8Bytes (s : Hash8) : List Nat :=
  wordBytesBE s.a ++ wordBytesBE s.b ++ wordBytesBE s.c ++ wordBytesBE s.d ++
  wordBytesBE s.e ++ wordBytesBE s.f ++ wordBytesBE s.g ++ wordBytesBE s.h

/-- SHA-256 of a byte list. -/
def sha256 (msg : List Nat) : List Nat :=
  hash8Bytes ((chunks64 (shaPad msg)).foldl shaCompress shaH0)

/-! ## HMAC-SHA256 and PBKDF2 (the `hashlib.pbkdf2_hmac` call of the code) -/

/-- HMAC key preprocessing: hash keys longer than the 64-byte block, then
zero-pad to the block size. -/
def hmacKeyBlock (key : List Nat) : List Nat :=
  let k0 := if 64 < key.length then sha256 key else key
  k0 ++ List.replicate (64 - k0.length) 0

/-- HMAC-SHA256 with ipad `0x36` and opad `0x5c`. -/
def hmacSha256 (key msg : List Nat) : List Nat :=
  let kb := hmacKeyBlock key
  let ip := kb.map (fun b => b ^^^ 54)
  let op := kb.map (fun b => b ^^^ 92)
  sha256 (op ++ sha256 (ip ++ msg))

/-- The iteration loop of PBKDF2: `fuel` remaining iterations, last block `u`,
running xor `t`. -/
def pbkdf2Loop (pw : List Nat) : Nat → List Nat → List Nat → List Nat
  | 0, _, t => t
  | fuel + 1, u, t =>
      let u2 := hmacSha256 pw u
      pbkdf2Loop pw fuel u2 (List.zipWith Nat.xor t u2)

/-- PBKDF2-HMAC-SHA256 with the default `dklen` of 32 bytes (one block,
block index 1), as computed by
`hashlib.pbkdf2_hmac with sha256, password, salt, iterations`. -/
def pbkdf2HmacSha256 (password salt : List Nat) (iterations : Nat) : List Nat :=
  let u1 := hmacSha256 password (salt ++ [0, 0, 0, 1])
  pbkdf2Loop password (iterations - 1) u1 u1

/-! ## Strings as UTF-8 bytes and hex encoding -/

/-- UTF-8 bytes of a string, as the Python `str.encode` produces. -/
def strBytes (s : String) : List Nat := s.toUTF8.toList.map (fun b => b.toNat)

/-- One lowercase hex digit. -/
def hexDigitChar (n : Nat) : Char :=
  if n < 10 then Char.ofNat (48 + n) else Char.ofNat (87 + n)

/-- Lowercase hex encoding of a byte list, as the Python `bytes.hex`. -/
def bytesToHex (bs : List Nat) : String :=
  String.mk ((bs.map (fun b => [hexDigitChar ((b / 16) % 16), hexDigitChar (b % 16)])).flatten)

/-! ## `hash_password` and `verify_password` (db.py lines 326-359) -/

/-- Method `DatabaseManager.hash_password`: PBKDF2-HMAC-SHA256 with 100000 iterations
over the UTF-8 password bytes keyed by the UTF-8 salt bytes, hex-encoded.
The `salt is None` branch draws `secrets.token_hex(32)`; that nondeterministic
draw is modelled by the caller passing the generated salt explicitly. -/
def hash_password (password : String) (salt : String) : String × String :=
  (bytesToHex (pbkdf2HmacSha256 (strBytes password) (strBytes salt) 100000), salt)

/-- Method `DatabaseManager.verify_password`: recompute and compare. -/
def verify_password (password stored_hash salt : String) : Bool :=
  (hash_password password salt).1 == stored_hash

/-! ## Table rows (schema of db.py `create_tables`, restricted to the columns
the verified operations read or write; timestamps are integers, e.g. seconds) -/

/-- A row of the `users` table. -/
structure UserRow where
  id : Nat
  username : String
  email : String
  email_verified : Bool
  password_hash : String
  salt : String
  first_name : Option String
  last_name : Option String
  is_active : Bool
  is_deleted : Bool
  last_login_at : Option Int
  created_at : Int
deriving DecidableEq

/-- A row of the `user_sessions` table. -/
structure SessionRow where
  id : String
  user_id : Nat
  device_info : Option String
  ip_address : Option String
  is_active : Bool
  expires_at : Int
  created_at : Int
  last_accessed_at : Int
deriving DecidableEq

/-- A row of the `roles` table. -/
structure RoleRow where
  id : Nat
  name : String
  description : Option String
deriving DecidableEq

/-- A row of the `user_roles` junction table; primary key `(user_id, role_id)`. -/
structure UserRoleRow where
  user_id : Nat
  role_id : Nat
  assigned_by : Option Nat
  assigned_at : Int
  expires_at : Option Int
deriving DecidableEq

/-- A row of the `user_security_logs` table. -/
structure LogRow where
  id : Nat
  user_id : Option Nat
  event_type : String
  ip_address : Option String
  user_agent : Option String
  success : Bool
  failure_reason : Option String
  metadata : Option String
  created_at : Int
deriving DecidableEq

/-- The database owned by `DatabaseManager`: the tables the verified
operations touch, plus the autoincrement counters SQLite keeps for them.
The `permissions`, token, `friends`, `results` and `posts` tables are
carried by no claim and are omitted. -/
structure DbState where
  users : List UserRow
  next_user_id : Nat
  roles : List RoleRow
  next_role_id : Nat
  user_roles : List UserRoleRow
  sessions : List SessionRow
  security_logs : List LogRow
  next_log_id : Nat
deriving DecidableEq

/-- Because `PRAGMA foreign_keys = ON` is set in `connect`: an insert referencing
`users(id)` is rejected unless the referenced row exists (a NULL reference is
allowed). -/
def fkUserOk (st : DbState) : Option Nat → Bool
  | none => true
  | some uid => st.users.any (fun u => u.id == uid)

/-! ## `log_security_event` (db.py lines 463-484) -/

/-- The Python `json.dumps` call on a string-to-string dict, modelled on association
lists (the only metadata shapes the module itself passes). -/
def jsonDumps (d : List (String × String)) : String :=
  "\x7b" ++ String.intercalate ", "
    (d.map (fun kv => "\"" ++ kv.1 ++ "\": \"" ++ kv.2 ++ "\"")) ++ "\x7d"

/-- Line 478, `json.dumps(metadata) if metadata else None`: both a missing
dict and an empty dict are falsy, so both store NULL. -/
def metadataToJson : Option (List (String × String)) → Option String
  | none => none
  | some d => if d.isEmpty then none else some (jsonDumps d)

/-- The `user_security_logs` row inserted by `log_security_event`. -/
def securityLogRow (st : DbState) (user_id : Option Nat) (event_type : String)
    (ip_address user_agent : Option String) (success : Bool)
    (failure_reason : Option String) (metadata : Option (List (String × String)))
    (now : Int) : LogRow :=
  { id := st.next_log_id, user_id := user_id, event_type := event_type,
    ip_address := ip_address, user_agent := user_agent, success := success,
    failure_reason := failure_reason, metadata := metadataToJson metadata,
    created_at := now }

/-- Method `DatabaseManager.log_security_event`: one INSERT into
`user_security_logs`.  The method catches nothing, so a foreign-key
violation on `user_id` (raised by `execute_query` as `sqlite3.IntegrityError`
after rollback) propagates to the caller; that is the `.error` case. -/
def log_security_event (st : DbState) (user_id : Option Nat) (event_type : String)
    (ip_address : Option String) (user_agent : Option String) (success : Bool)
    (failure_reason : Option String) (metadata : Option (List (String × String)))
    (now : Int) : Except String DbState :=
  if fkUserOk st user_id then
    .ok { st with
          security_logs := st.security_logs ++
            [securityLogRow st user_id event_type ip_address user_agent success
              failure_reason metadata now],
          next_log_id := st.next_log_id + 1 }
  else
    .error "FOREIGN KEY constraint failed"

/-! ## User lookup and authentication (db.py lines 486-523) -/

/-- Method `DatabaseManager.get_user_by_email`: first row with this email that is
active and not soft-deleted. -/
def get_user_by_email (st : DbState) (email : String) : Option UserRow :=
  st.users.find? (fun u => u.email == email && u.is_active && !u.is_deleted)

/-- Method `DatabaseManager.authenticate_user`.  Both failure paths log a
`login_failed` event (with the default `success=True` flag, which the code
does not override); the success path returns the full row and writes
nothing. -/
def authenticate_user (st : DbState) (email password : String) (now : Int) :
    Except String (DbState × Option UserRow) :=
  match get_user_by_email st email with
  | none =>
      match log_security_event st none "login_failed" none none true
              (some "User not found") none now with
      | .error e => .error e
      | .ok st2 => .ok (st2, none)
  | some user =>
      if verify_password password user.password_hash user.salt then
        .ok (st, some user)
      else
        match log_security_event st (some user.id) "login_failed" none none true
                (some "Invalid password") none now with
        | .error e => .error e
        | .ok st2 => .ok (st2, none)

/-! ## Roles (db.py lines 284-324 and 398-429) -/

/-- Method `DatabaseManager.assign_role_to_user`.  The role name is resolved first;
an unknown name returns `false` with no write.  The INSERT OR REPLACE then
replaces any existing row with the same `(user_id, role_id)` primary key;
its two foreign keys on `users(id)` are enforced, and the
`except sqlite3.Error` turns a violation into a plain `false` return. -/
def assign_role_to_user (st : DbState) (user_id : Nat) (role_name : String)
    (assigned_by : Nat) (now : Int) : DbState × Bool :=
  match st.roles.find? (fun r => r.name == role_name) with
  | none => (st, false)
  | some role =>
      if st.users.any (fun u => u.id == user_id) &&
         st.users.any (fun u => u.id == assigned_by) then
        let kept := st.user_roles.filter
          (fun ur => !(ur.user_id == user_id && ur.role_id == role.id))
        let newRow : UserRoleRow :=
          { user_id := user_id, role_id := role.id,
            assigned_by := some assigned_by, assigned_at := now,
            expires_at := none }
        ({ st with user_roles := kept ++ [newRow] }, true)
      else
        (st, false)

/-- The four default roles of `create_default_roles_and_permissions`. -/
def default_roles : List (String × String) :=
  [("admin", "Full system administrator"),
   ("moderator", "Content moderation privileges"),
   ("user", "Standard user privileges"),
   ("premium_user", "Premium user with extended features")]

/-- One `INSERT OR IGNORE INTO roles` statement. -/
def insertRoleIgnore (st : DbState) (name description : String) : DbState :=
  if st.roles.any (fun r => r.name == name) then st
  else { st with
         roles := st.roles ++
           [{ id := st.next_role_id, name := name, description := some description }],
         next_role_id := st.next_role_id + 1 }

/-- Method `DatabaseManager.create_default_roles_and_permissions`, restricted to the
`roles` table (the default permissions touch no verified operation). -/
def create_default_roles_and_permissions (st : DbState) : DbState :=
  default_roles.foldl (fun st p => insertRoleIgnore st p.1 p.2) st

/-! ## `create_user` (db.py lines 361-396) -/

/-- Method `DatabaseManager.create_user`.  The password is hashed with a generated
salt (passed explicitly here), the row is inserted — a duplicate username or
email violates a UNIQUE constraint, is caught as `sqlite3.IntegrityError`
and returns `None` with no write — then the default role is assigned (its
boolean result is discarded) and a `user_created` event is logged.  Each
statement commits on its own, so were the final log insert to fail, the
caught exception would return `None` while keeping the already-committed
user row; that branch is shown unreachable below. -/
def newUserRow (st : DbState) (username email password : String)
    (first_name last_name : Option String) (salt : String) (now : Int) : UserRow :=
  { id := st.next_user_id, username := username, email := email,
    email_verified := false, password_hash := (hash_password password salt).1,
    salt := (hash_password password salt).2, first_name := first_name,
    last_name := last_name, is_active := true, is_deleted := false,
    last_login_at := none, created_at := now }

/-- Method `DatabaseManager.create_user` proper; see the comment on `newUserRow`. -/
def create_user (st : DbState) (username email password : String)
    (first_name last_name : Option String) (salt : String) (now : Int) :
    DbState × Option Nat :=
  if st.users.any (fun u => u.username == username || u.email == email) then
    (st, none)
  else
    let uid := st.next_user_id
    let newUser := newUserRow st username email password first_name last_name salt now
    let st1 := { st with users := st.users ++ [newUser], next_user_id := uid + 1 }
    let st2 := (assign_role_to_user st1 uid "user" uid now).1
    match log_security_event st2 (some uid) "user_created" none none true
            none none now with
    | .ok st3 => (st3, some uid)
    | .error _ => (st2, none)

/-! ## Sessions (db.py lines 431-461 and 525-534) -/

/-- The session row inserted by `DatabaseManager.create_session`.  The random
`uuid4` token is the explicit `session_id` argument; `expires_at =
datetime.now() + timedelta(hours=duration_hours)` with timestamps in seconds.
The insert carries an enforced foreign key on `users(id)` and the method
catches nothing, so an unknown user propagates an error. -/
def newSessionRow (user_id : Nat) (device_info ip_address : Option String)
    (duration_hours : Int) (session_id : String) (now : Int) : SessionRow :=
  { id := session_id, user_id := user_id, device_info := device_info,
    ip_address := ip_address, is_active := true,
    expires_at := now + 3600 * duration_hours,
    created_at := now, last_accessed_at := now }

/-- Update of `last_login_at` applied to each user row by the UPDATE of
`create_session`. -/
def touchLastLogin (user_id : Nat) (now : Int) (u : UserRow) : UserRow :=
  if u.id == user_id then { u with last_login_at := some now } else u

/-- Method `DatabaseManager.create_session` proper; see `newSessionRow`. -/
def create_session (st : DbState) (user_id : Nat)
    (device_info ip_address : Option String) (duration_hours : Int)
    (session_id : String) (now : Int) : Except String (DbState × String) :=
  if st.users.any (fun u => u.id == user_id) then
    let newSession := newSessionRow user_id device_info ip_address duration_hours session_id now
    let st1 := { st with sessions := st.sessions ++ [newSession] }
    let st2 := { st1 with users := st1.users.map (touchLastLogin user_id now) }
    match log_security_event st2 (some user_id) "login" ip_address none true
            none none now with
    | .ok st3 => .ok (st3, session_id)
    | .error e => .error e
  else
    .error "FOREIGN KEY constraint failed"

/-- Method `DatabaseManager.cleanup_expired_sessions`: one DELETE of every session
with `expires_at < CURRENT_TIMESTAMP`, returning the rowcount of the cursor. -/
def cleanup_expired_sessions (st : DbState) (now : Int) : DbState × Nat :=
  ({ st with sessions := st.sessions.filter (fun s => !(s.expires_at < now)) },
   (st.sessions.filter (fun s => decide (s.expires_at < now))).length)

/-- The empty database right after `create_tables`. -/
def emptyDb : DbState :=
  { users := [], next_user_id := 1, roles := [], next_role_id := 1,
    user_roles := [], sessions := [], security_logs := [], next_log_id := 1 }

/-- The state `DatabaseManager.__init__` leaves behind on a fresh file. -/
def initDb : DbState := create_default_roles_and_permissions emptyDb

/-! ## Auxiliary notions for the statements -/

/-- Base-256 value of a byte list (used to count distinct digests). -/
def packBytes : List Nat → Nat
  | [] => 0
  | b :: bs => b * 256 ^ bs.length + packBytes bs

/-- The UNIQUE index `idx_users_email`: no two user rows share an email. -/
def EmailUnique (st : DbState) : Prop :=
  ∀ u1 ∈ st.users, ∀ u2 ∈ st.users, u1.email = u2.email → u1 = u2

/-- The `(user_id, role_id)` primary key of `user_roles`: no two rows share
the pair. -/
def UserRolesKeyed (l : List UserRoleRow) : Prop :=
  l.Pairwise (fun ur1 ur2 => ¬(ur1.user_id = ur2.user_id ∧ ur1.role_id = ur2.role_id))

/-- A sample stored user row (its hash fields need not be genuine for the
claims that use it). -/
def johnRow : UserRow :=
  { id := 1, username := "johndoe", email := "john@example.com",
    email_verified := false, password_hash := "h", salt := "s",
    first_name := some "John", last_name := some "Doe", is_active := true,
    is_deleted := false, last_login_at := none, created_at := 0 }

/-- A database holding the default roles and the single user `johnRow`. -/
def stJohn : DbState := { initDb with users := [johnRow], next_user_id := 2 }

/-- The database reached from `stJohn` by `create_session` with duration 0
at time 100: the session expires exactly at its creation instant. -/
def stJohnLoginLog : LogRow :=
  { id := 1, user_id := some 1, event_type := "login", ip_address := none,
    user_agent := none, success := true, failure_reason := none,
    metadata := none, created_at := 100 }

def stJohnAfterSession : DbState :=
  { stJohn with
    users := [{ johnRow with last_login_at := some 100 }],
    sessions := [newSessionRow 1 none none 0 "sid" 100],
    security_logs := [stJohnLoginLog],
    next_log_id := 2 }

/-! ## Helper lemmas: shape of digests -/

theorem mem_wordBytesBE_lt {w b : Nat} (hb : b ∈ wordBytesBE w) : b < 256 := by
  simp only [wordBytesBE, List.mem_cons, List.not_mem_nil, or_false] at hb
  rcases hb with rfl | rfl | rfl | rfl <;> exact Nat.mod_lt _ (by norm_num)

theorem hash8Bytes_length (s : Hash8) : (hash8Bytes s).length = 32 := by
  simp [hash8Bytes, wordBytesBE]

theorem mem_hash8Bytes_lt {s : Hash8} {b : Nat} (hb : b ∈ hash8Bytes s) : b < 256 := by
  simp only [hash8Bytes, List.mem_append] at hb
  rcases hb with ((((((h | h) | h) | h) | h) | h) | h) | h <;> exact mem_wordBytesBE_lt h

theorem sha256_length (m : List Nat) : (sha256 m).length = 32 :=
  hash8Bytes_length _

theorem mem_sha256_lt {m : List Nat} {b : Nat} (hb : b ∈ sha256 m) : b < 256 :=
  mem_hash8Bytes_lt hb

theorem mem_zipWith_xor_lt :
    ∀ (as bs : List Nat), (∀ a ∈ as, a < 256) → (∀ b ∈ bs, b < 256) →
      ∀ x ∈ List.zipWith Nat.xor as bs, x < 256 := by
  intro as
  induction as with
  | nil => intro bs _ _ x hx; simp at hx
  | cons a as ih =>
    intro bs ha hb x hx
    cases bs with
    | nil => simp at hx
    | cons b bs2 =>
      simp only [List.zipWith_cons_cons, List.mem_cons] at hx
      rcases hx with rfl | hx
      · have h1 : a < 2 ^ 8 := by
          have := ha a (by simp)
          omega
        have h2 : b < 2 ^ 8 := by
          have := hb b (by simp)
          omega
        change a ^^^ b < 256
        simpa using Nat.xor_lt_two_pow h1 h2
      · exact ih bs2 (fun y hy => ha y (by simp [hy])) (fun y hy => hb y (by simp [hy])) x hx

theorem hmacSha256_length (key msg : List Nat) : (hmacSha256 key msg).length = 32 :=
  sha256_length _

theorem mem_hmacSha256_lt {key msg : List Nat} {b : Nat}
    (hb : b ∈ hmacSha256 key msg) : b < 256 :=
  mem_sha256_lt hb

theorem pbkdf2Loop_shape (pw : List Nat) :
    ∀ (fuel : Nat) (u t : List Nat), t.length = 32 → (∀ b ∈ t, b < 256) →
      (pbkdf2Loop pw fuel u t).length = 32 ∧
        ∀ b ∈ pbkdf2Loop pw fuel u t, b < 256 := by
  intro fuel
  induction fuel with
  | zero => intro u t hlen hbd; exact ⟨hlen, hbd⟩
  | succ n ih =>
    intro u t hlen hbd
    simp only [pbkdf2Loop]
    apply ih
    · rw [List.length_zipWith, hlen, hmacSha256_length]
      exact min_self 32
    · exact mem_zipWith_xor_lt t _ hbd (fun b hb => mem_hmacSha256_lt hb)

theorem pbkdf2HmacSha256_length (pw salt : List Nat) (iter : Nat) :
    (pbkdf2HmacSha256 pw salt iter).length = 32 :=
  (pbkdf2Loop_shape pw (iter - 1) _ _ (hmacSha256_length _ _)
    (fun _ hb => mem_hmacSha256_lt hb)).1

theorem mem_pbkdf2HmacSha256_lt {pw salt : List Nat} {iter : Nat} {b : Nat}
    (hb : b ∈ pbkdf2HmacSha256 pw salt iter) : b < 256 :=
  (pbkdf2Loop_shape pw (iter - 1) _ _ (hmacSha256_length _ _)
    (fun _ hx => mem_hmacSha256_lt hx)).2 b hb

/-! ## Helper lemmas: base-256 packing -/

theorem packBytes_lt : ∀ (bs : List Nat), (∀ b ∈ bs, b < 256) →
    packBytes bs < 256 ^ bs.length := by
  intro bs
  induction bs with
  | nil => intro _; simp [packBytes]
  | cons b bs ih =>
    intro hbd
    have hb : b < 256 := hbd b (by simp)
    have hbs : packBytes bs < 256 ^ bs.length := ih (fun x hx => hbd x (by simp [hx]))
    simp only [packBytes, List.length_cons]
    calc b * 256 ^ bs.length + packBytes bs
        < b * 256 ^ bs.length + 256 ^ bs.length := by omega
      _ = (b + 1) * 256 ^ bs.length := by ring
      _ ≤ 256 * 256 ^ bs.length := Nat.mul_le_mul_right _ (by omega)
      _ = 256 ^ (bs.length + 1) := by ring

theorem packBytes_inj : ∀ (as bs : List Nat), as.length = bs.length →
    (∀ a ∈ as, a < 256) → (∀ b ∈ bs, b < 256) →
    packBytes as = packBytes bs → as = bs := by
  intro as
  induction as with
  | nil =>
    intro bs hlen _ _ _
    cases bs with
    | nil => rfl
    | cons b bs2 => simp at hlen
  | cons a as ih =>
    intro bs hlen ha hb hp
    cases bs with
    | nil => simp at hlen
    | cons b bs2 =>
      have hlen2 : as.length = bs2.length := by simpa using hlen
      have h1 : packBytes as < 256 ^ bs2.length := by
        rw [← hlen2]; exact packBytes_lt as (fun x hx => ha x (by simp [hx]))
      have h2 : packBytes bs2 < 256 ^ bs2.length := by
        exact packBytes_lt bs2 (fun x hx => hb x (by simp [hx]))
      simp only [packBytes, hlen2] at hp
      have hab : a = b := by
        rcases Nat.lt_trichotomy a b with hlt | heq | hgt
        · exfalso
          have hstep : a * 256 ^ bs2.length + packBytes as
              < b * 256 ^ bs2.length + packBytes bs2 := by
            calc a * 256 ^ bs2.length + packBytes as
                < a * 256 ^ bs2.length + 256 ^ bs2.length := by omega
              _ = (a + 1) * 256 ^ bs2.length := by ring
              _ ≤ b * 256 ^ bs2.length := Nat.mul_le_mul_right _ (by omega)
              _ ≤ b * 256 ^ bs2.length + packBytes bs2 := Nat.le_add_right _ _
          omega
        · exact heq
        · exfalso
          have hstep : b * 256 ^ bs2.length + packBytes bs2
              < a * 256 ^ bs2.length + packBytes as := by
            calc b * 256 ^ bs2.length + packBytes bs2
                < b * 256 ^ bs2.length + 256 ^ bs2.length := by omega
              _ = (b + 1) * 256 ^ bs2.length := by ring
              _ ≤ a * 256 ^ bs2.length := Nat.mul_le_mul_right _ (by omega)
              _ ≤ a * 256 ^ bs2.length + packBytes as := Nat.le_add_right _ _
          omega
      subst hab
      have htail : packBytes as = packBytes bs2 := by omega
      rw [ih bs2 hlen2 (fun x hx => ha x (by simp [hx]))
        (fun x hx => hb x (by simp [hx])) htail]

/-! ## Claim C2 -/

/-- C2 (amended): for every password and salt the round trip
`verify_password(p, hash_password(p, s).hash, s)` is true, and in general
`verify_password(p2, h, s)` is true exactly when the hash recomputed for
`p2` with salt `s` equals `h` — so a different password is rejected iff its
derived hash differs, which cannot hold for all pairs of distinct
passwords. -/
theorem C2_verify_password_exact :
    (∀ p s : String, verify_password p (hash_password p s).1 s = true) ∧
    (∀ p h s : String, verify_password p h s = true ↔ (hash_password p s).1 = h) := by
  constructor
  · intro p s
    unfold verify_password
    exact beq_self_eq_true _
  · intro p h s
    unfold verify_password
    exact beq_iff_eq

set_option maxRecDepth 4096 in
/-- C2 as stated is false: `hash_password` maps the infinitely many
passwords into the finitely many 32-byte digests, so two distinct passwords
share a stored hash and the second one verifies against the first one's
record.  This refutes the universally quantified second half of the claim
(nonconstructively — no concrete collision of SHA-256 is known). -/
theorem C2_counterexample :
    ¬ (∀ p p2 s : String, p ≠ p2 →
        verify_password p2 (hash_password p s).1 s = false) := by
  intro hall
  have hFfin : ∀ n : Nat,
      packBytes (pbkdf2HmacSha256 (strBytes (String.mk (List.replicate n 'a')))
        (strBytes "") 100000) < 256 ^ 32 := by
    intro n
    have h := packBytes_lt
      (pbkdf2HmacSha256 (strBytes (String.mk (List.replicate n 'a'))) (strBytes "") 100000)
      (fun b hb => mem_pbkdf2HmacSha256_lt hb)
    rwa [pbkdf2HmacSha256_length] at h
  obtain ⟨n, m, hnm, hF⟩ := Finite.exists_ne_map_eq_of_infinite
    (fun n : Nat =>
      (⟨packBytes (pbkdf2HmacSha256 (strBytes (String.mk (List.replicate n 'a')))
          (strBytes "") 100000), hFfin n⟩ : Fin (256 ^ 32)))
  rw [Fin.mk.injEq] at hF
  have hdig : pbkdf2HmacSha256 (strBytes (String.mk (List.replicate n 'a')))
        (strBytes "") 100000
      = pbkdf2HmacSha256 (strBytes (String.mk (List.replicate m 'a')))
        (strBytes "") 100000 := by
    refine packBytes_inj _ _ ?_ (fun b hb => mem_pbkdf2HmacSha256_lt hb)
      (fun b hb => mem_pbkdf2HmacSha256_lt hb) hF
    rw [pbkdf2HmacSha256_length, pbkdf2HmacSha256_length]
  have hne : String.mk (List.replicate n 'a') ≠ String.mk (List.replicate m 'a') := by
    intro he
    apply hnm
    have hdata := congrArg String.data he
    simp only [String.data] at hdata
    have := congrArg List.length hdata
    simpa using this
  have hfalse := hall (String.mk (List.replicate n 'a'))
    (String.mk (List.replicate m 'a')) "" hne
  have htrue : verify_password (String.mk (List.replicate m 'a'))
      (hash_password (String.mk (List.replicate n 'a')) "").1 "" = true := by
    simp [verify_password, hash_password, hdig]
  rw [htrue] at hfalse
  exact absurd hfalse (by simp)

/-! ## Claim C8 -/

/-- C8 fails on the code: `log_security_event` with a `user_id` that matches
no user row violates the enforced foreign key, `execute_query` re-raises the
`sqlite3.IntegrityError` after rollback, the method catches nothing, and no
record is appended — here evaluated on the empty database with `user_id = 1`. -/
theorem C8_log_security_event_raises :
    log_security_event emptyDb (some 1) "login" none none true none none 0 =
      Except.error "FOREIGN KEY constraint failed" := by
  rfl

/-! ## Claim C10 -/

/-- C10: passing an empty metadata dict stores NULL and is indistinguishable
from passing no metadata, because line 478 tests dict truthiness; a
non-empty dict is JSON-serialized. -/
theorem C10_empty_metadata_null (st : DbState) (uid : Option Nat) (et : String)
    (ip ua : Option String) (succ : Bool) (fr : Option String) (now : Int) :
    log_security_event st uid et ip ua succ fr (some []) now =
      log_security_event st uid et ip ua succ fr none now ∧
    metadataToJson (some []) = none ∧
    ∀ (kv : String × String) (rest : List (String × String)),
      metadataToJson (some (kv :: rest)) = some (jsonDumps (kv :: rest)) :=
  ⟨rfl, rfl, fun _ _ => rfl⟩

/-! ## Claim C6 -/

/-- C6: `cleanup_expired_sessions` keeps exactly the sessions whose expiry
has not passed, the returned count plus the survivors account for every
session, a immediate second run deletes zero and changes nothing, and no
other table is touched. -/
theorem C6_cleanup_expired_sessions_spec (st : DbState) (now : Int) :
    (∀ srow, srow ∈ (cleanup_expired_sessions st now).1.sessions ↔
        (srow ∈ st.sessions ∧ ¬(srow.expires_at < now))) ∧
    st.sessions.length =
      (cleanup_expired_sessions st now).1.sessions.length +
        (cleanup_expired_sessions st now).2 ∧
    (cleanup_expired_sessions (cleanup_expired_sessions st now).1 now).2 = 0 ∧
    (cleanup_expired_sessions (cleanup_expired_sessions st now).1 now).1 =
      (cleanup_expired_sessions st now).1 ∧
    (cleanup_expired_sessions st now).1.users = st.users ∧
    (cleanup_expired_sessions st now).1.user_roles = st.user_roles ∧
    (cleanup_expired_sessions st now).1.security_logs = st.security_logs := by
  refine ⟨?_, ?_, ?_, ?_, rfl, rfl, rfl⟩
  · intro srow
    simp [cleanup_expired_sessions, List.mem_filter]
  · have h := List.length_eq_length_filter_add
      (l := st.sessions) (fun s => decide (s.expires_at < now))
    rw [Nat.add_comm] at h
    simpa [cleanup_expired_sessions] using h
  · simp [cleanup_expired_sessions, List.filter_filter]
  · simp [cleanup_expired_sessions, List.filter_filter]

/-! ## Claim C1 -/

theorem get_user_by_email_eq_none (st : DbState) (email : String)
    (h : ∀ u ∈ st.users,
      ¬(u.email = email ∧ u.is_active = true ∧ u.is_deleted = false)) :
    get_user_by_email st email = none := by
  apply List.find?_eq_none.mpr
  intro u hu
  specialize h u hu
  simp only [Bool.and_eq_true, beq_iff_eq, Bool.not_eq_true']
  intro hc
  rcases hc with ⟨⟨he, ha⟩, hd⟩
  exact h ⟨he, ha, hd⟩

theorem get_user_by_email_eq_some (st : DbState) (email : String)
    (hU : EmailUnique st) (u : UserRow) (hu : u ∈ st.users)
    (he : u.email = email) (ha : u.is_active = true) (hd : u.is_deleted = false) :
    get_user_by_email st email = some u := by
  cases hfind : get_user_by_email st email with
  | none =>
    exfalso
    have hnone := List.find?_eq_none.mp hfind u hu
    simp [he, ha, hd] at hnone
  | some v =>
    have hv := List.find?_some hfind
    have hvmem := List.mem_of_find?_eq_some hfind
    simp only [Bool.and_eq_true, beq_iff_eq, Bool.not_eq_true'] at hv
    have heq : v = u := hU v hvmem u hu (by rw [hv.1.1, he])
    rw [heq]

theorem fkUserOk_of_mem {st : DbState} {u : UserRow} (hu : u ∈ st.users) :
    fkUserOk st (some u.id) = true := by
  simp only [fkUserOk, List.any_eq_true]
  exact ⟨u, hu, by simp⟩

/-- C1: `authenticate_user` returns the full stored row exactly for an
active, non-deleted user with the given email whose password verifies
against the stored hash and salt; when no such user matches, it returns
none and appends a `login_failed` log entry with reason User not found;
when the user matches but the password does not verify, it returns none and
appends a `login_failed` entry with reason Invalid password; and no branch
writes a session row (or touches the users table).  Email uniqueness is the
UNIQUE index the schema enforces. -/
theorem C1_authenticate_user_spec (st : DbState) (email password : String)
    (now : Int) (hU : EmailUnique st) :
    ((∀ u ∈ st.users,
        ¬(u.email = email ∧ u.is_active = true ∧ u.is_deleted = false)) →
      authenticate_user st email password now =
        Except.ok ({ st with
          security_logs := st.security_logs ++
            [securityLogRow st none "login_failed" none none true
              (some "User not found") none now],
          next_log_id := st.next_log_id + 1 }, none)) ∧
    (∀ u ∈ st.users, u.email = email → u.is_active = true →
      u.is_deleted = false →
      verify_password password u.password_hash u.salt = true →
      authenticate_user st email password now = Except.ok (st, some u)) ∧
    (∀ u ∈ st.users, u.email = email → u.is_active = true →
      u.is_deleted = false →
      verify_password password u.password_hash u.salt = false →
      authenticate_user st email password now =
        Except.ok ({ st with
          security_logs := st.security_logs ++
            [securityLogRow st (some u.id) "login_failed" none none true
              (some "Invalid password") none now],
          next_log_id := st.next_log_id + 1 }, none)) ∧
    (∀ st2 r, authenticate_user st email password now = Except.ok (st2, r) →
      st2.sessions = st.sessions ∧ st2.users = st.users) := by
  refine ⟨?_, ?_, ?_, ?_⟩
  · intro h
    unfold authenticate_user
    rw [get_user_by_email_eq_none st email h]
    rfl
  · intro u hu he ha hd hv
    unfold authenticate_user
    rw [get_user_by_email_eq_some st email hU u hu he ha hd]
    simp [hv]
  · intro u hu he ha hd hv
    unfold authenticate_user
    rw [get_user_by_email_eq_some st email hU u hu he ha hd]
    simp only [hv, Bool.false_eq_true, if_false]
    simp [log_security_event, fkUserOk_of_mem hu]
  · intro st2 r heq
    unfold authenticate_user at heq
    cases hfind : get_user_by_email st email with
    | none =>
      rw [hfind] at heq
      simp only [log_security_event, fkUserOk] at heq
      simp only [if_true] at heq
      cases heq
      exact ⟨rfl, rfl⟩
    | some user =>
      rw [hfind] at heq
      by_cases hv : verify_password password user.password_hash user.salt = true
      · simp only [hv, if_true] at heq
        cases heq
        exact ⟨rfl, rfl⟩
      · have hmem : user ∈ st.users :=
          List.mem_of_find?_eq_some (by simpa [get_user_by_email] using hfind)
        simp only [Bool.not_eq_true] at hv
        simp only [hv, Bool.false_eq_true, if_false] at heq
        simp only [log_security_event, fkUserOk_of_mem hmem, if_true] at heq
        cases heq
        exact ⟨rfl, rfl⟩

/-- Witness for C1 at the empty database: the email misses, a User not
found entry is appended, and no session appears. -/
theorem C1_authenticate_user_spec_witness :
    EmailUnique emptyDb ∧
    authenticate_user emptyDb "john@example.com" "password123" 0 =
      Except.ok ({ emptyDb with
        security_logs := emptyDb.security_logs ++
          [securityLogRow emptyDb none "login_failed" none none true
            (some "User not found") none 0],
        next_log_id := emptyDb.next_log_id + 1 }, none) := by
  have hU : EmailUnique emptyDb := by
    intro u1 h1 u2 h2 _
    simp [emptyDb] at h1
  refine ⟨hU, ?_⟩
  exact (C1_authenticate_user_spec emptyDb "john@example.com" "password123" 0 hU).1
    (by intro u hu; simp [emptyDb] at hu)

/-! ## Claim C3 -/

/-- C3: creating a user whose username or email collides with an existing
row returns None — the UNIQUE-constraint `IntegrityError` is caught, not
re-raised — and leaves the whole database, in particular the users table
and the colliding row, unchanged. -/
theorem C3_create_user_duplicate (st : DbState) (username email password : String)
    (first_name last_name : Option String) (salt : String) (now : Int)
    (hdup : ∃ u ∈ st.users, u.username = username ∨ u.email = email) :
    create_user st username email password first_name last_name salt now =
      (st, none) := by
  unfold create_user
  have hany : st.users.any (fun u => u.username == username || u.email == email)
      = true := by
    obtain ⟨u, hu, hor⟩ := hdup
    refine List.any_eq_true.mpr ⟨u, hu, ?_⟩
    rcases hor with h | h <;> simp [h]
  simp [hany]

/-- Witness for C3: a second johndoe against the stored `johnRow`. -/
theorem C3_create_user_duplicate_witness :
    (∃ u ∈ stJohn.users, u.username = "johndoe" ∨ u.email = "new@example.com") ∧
    create_user stJohn "johndoe" "new@example.com" "pw" none none "tt" 5 =
      (stJohn, none) := by
  have hdup : ∃ u ∈ stJohn.users, u.username = "johndoe" ∨ u.email = "new@example.com" :=
    ⟨johnRow, List.mem_singleton_self johnRow, Or.inl rfl⟩
  exact ⟨hdup,
    C3_create_user_duplicate stJohn "johndoe" "new@example.com" "pw" none none "tt" 5 hdup⟩

/-! ## Claim C4 -/

/-- C4: with a fresh username and email, the default user role present in
the roles table, and no stale junction row for the fresh id, `create_user`
appends exactly one user row whose `password_hash` and `salt` are produced
by `hash_password`, appends the default-role assignment for the new user to
`user_roles`, appends one `user_created` security-log entry for that user,
and returns the new id. -/
theorem C4_create_user_success (st : DbState) (username email password : String)
    (first_name last_name : Option String) (salt : String) (now : Int)
    (role : RoleRow)
    (hfresh : ∀ u ∈ st.users, u.username ≠ username ∧ u.email ≠ email)
    (hrole : st.roles.find? (fun r => r.name == "user") = some role)
    (hnostale : ∀ ur ∈ st.user_roles, ur.user_id ≠ st.next_user_id) :
    create_user st username email password first_name last_name salt now =
      ({ st with
          users := st.users ++
            [newUserRow st username email password first_name last_name salt now],
          next_user_id := st.next_user_id + 1,
          user_roles := st.user_roles ++
            [{ user_id := st.next_user_id, role_id := role.id,
               assigned_by := some st.next_user_id, assigned_at := now,
               expires_at := none }],
          security_logs := st.security_logs ++
            [{ id := st.next_log_id, user_id := some st.next_user_id,
               event_type := "user_created", ip_address := none,
               user_agent := none, success := true, failure_reason := none,
               metadata := none, created_at := now }],
          next_log_id := st.next_log_id + 1 }, some st.next_user_id) ∧
    (newUserRow st username email password first_name last_name salt now).password_hash
        = (hash_password password salt).1 ∧
    (newUserRow st username email password first_name last_name salt now).salt
        = salt := by
  refine ⟨?_, rfl, rfl⟩
  have hany : st.users.any (fun u => u.username == username || u.email == email)
      = false := by
    rw [List.any_eq_false]
    intro u hu
    have hne := hfresh u hu
    simp [hne.1, hne.2]
  have hfk : (st.users ++
      [newUserRow st username email password first_name last_name salt now]).any
        (fun u => u.id == st.next_user_id) = true := by
    refine List.any_eq_true.mpr ⟨newUserRow st username email password
      first_name last_name salt now, by simp, ?_⟩
    simp [newUserRow]
  have hfilter : st.user_roles.filter
      (fun ur => !(ur.user_id == st.next_user_id && ur.role_id == role.id))
        = st.user_roles := by
    rw [List.filter_eq_self]
    intro ur hur
    have hne : (ur.user_id == st.next_user_id) = false :=
      beq_eq_false_iff_ne.mpr (hnostale ur hur)
    simp [hne]
  unfold create_user
  simp only [hany, Bool.false_eq_true, if_false]
  unfold assign_role_to_user
  simp only [hrole, hfk, Bool.and_self, if_true, hfilter]
  simp only [log_security_event, fkUserOk, hfk, if_true]
  rfl

/-- Witness for C4: creating johndoe on the freshly initialized database
(default roles present, `user` has role id 3, the new user gets id 1). -/
theorem C4_create_user_success_witness :
    create_user initDb "johndoe" "john@example.com" "password123" (some "John")
        (some "Doe") "ab" 0 =
      ({ initDb with
          users := initDb.users ++
            [newUserRow initDb "johndoe" "john@example.com" "password123"
              (some "John") (some "Doe") "ab" 0],
          next_user_id := initDb.next_user_id + 1,
          user_roles := initDb.user_roles ++
            [{ user_id := initDb.next_user_id, role_id := 3,
               assigned_by := some initDb.next_user_id, assigned_at := 0,
               expires_at := none }],
          security_logs := initDb.security_logs ++
            [{ id := initDb.next_log_id, user_id := some initDb.next_user_id,
               event_type := "user_created", ip_address := none,
               user_agent := none, success := true, failure_reason := none,
               metadata := none, created_at := 0 }],
          next_log_id := initDb.next_log_id + 1 }, some initDb.next_user_id) :=
  (C4_create_user_success initDb "johndoe" "john@example.com" "password123"
      (some "John") (some "Doe") "ab" 0
      ⟨3, "user", some "Standard user privileges"⟩
      (by
        intro u hu
        have hempty : initDb.users = [] := rfl
        rw [hempty] at hu
        simp at hu)
      (by rfl)
      (by
        intro ur hur
        have hempty : initDb.user_roles = [] := rfl
        rw [hempty] at hur
        simp at hur)).1

/-! ## Claim C9 -/

/-- C9: when the default user role row is absent, `create_user` still
returns the fresh id after a successful insert — the boolean failure of
`assign_role_to_user` is discarded — and the new user ends up holding no
role: `user_roles` is untouched. -/
theorem C9_create_user_ignores_role_failure (st : DbState)
    (username email password : String) (first_name last_name : Option String)
    (salt : String) (now : Int)
    (hfresh : ∀ u ∈ st.users, u.username ≠ username ∧ u.email ≠ email)
    (hnorole : st.roles.find? (fun r => r.name == "user") = none) :
    create_user st username email password first_name last_name salt now =
      ({ st with
          users := st.users ++
            [newUserRow st username email password first_name last_name salt now],
          next_user_id := st.next_user_id + 1,
          security_logs := st.security_logs ++
            [{ id := st.next_log_id, user_id := some st.next_user_id,
               event_type := "user_created", ip_address := none,
               user_agent := none, success := true, failure_reason := none,
               metadata := none, created_at := now }],
          next_log_id := st.next_log_id + 1 }, some st.next_user_id) ∧
    (assign_role_to_user
        { st with
          users := st.users ++
            [newUserRow st username email password first_name last_name salt now],
          next_user_id := st.next_user_id + 1 }
        st.next_user_id "user" st.next_user_id now).2 = false ∧
    (create_user st username email password first_name last_name salt now).1.user_roles
      = st.user_roles := by
  have hany : st.users.any (fun u => u.username == username || u.email == email)
      = false := by
    rw [List.any_eq_false]
    intro u hu
    have hne := hfresh u hu
    simp [hne.1, hne.2]
  have hfk : (st.users ++
      [newUserRow st username email password first_name last_name salt now]).any
        (fun u => u.id == st.next_user_id) = true := by
    refine List.any_eq_true.mpr ⟨newUserRow st username email password
      first_name last_name salt now, by simp, ?_⟩
    simp [newUserRow]
  have hmain : create_user st username email password first_name last_name salt now =
      ({ st with
          users := st.users ++
            [newUserRow st username email password first_name last_name salt now],
          next_user_id := st.next_user_id + 1,
          security_logs := st.security_logs ++
            [{ id := st.next_log_id, user_id := some st.next_user_id,
               event_type := "user_created", ip_address := none,
               user_agent := none, success := true, failure_reason := none,
               metadata := none, created_at := now }],
          next_log_id := st.next_log_id + 1 }, some st.next_user_id) := by
    unfold create_user
    simp only [hany, Bool.false_eq_true, if_false]
    unfold assign_role_to_user
    simp only [hnorole]
    simp only [log_security_event, fkUserOk, hfk, if_true]
    rfl
  refine ⟨hmain, ?_, ?_⟩
  · unfold assign_role_to_user
    simp only [hnorole]
  · rw [hmain]

/-- Witness for C9: the database before `create_default_roles_and_permissions`
has no user role; creation still returns id 1 and assigns nothing. -/
theorem C9_create_user_ignores_role_failure_witness :
    create_user emptyDb "solo" "solo@example.com" "pw" none none "cd" 3 =
      ({ emptyDb with
          users := emptyDb.users ++
            [newUserRow emptyDb "solo" "solo@example.com" "pw" none none "cd" 3],
          next_user_id := emptyDb.next_user_id + 1,
          security_logs := emptyDb.security_logs ++
            [{ id := emptyDb.next_log_id, user_id := some emptyDb.next_user_id,
               event_type := "user_created", ip_address := none,
               user_agent := none, success := true, failure_reason := none,
               metadata := none, created_at := 3 }],
          next_log_id := emptyDb.next_log_id + 1 }, some emptyDb.next_user_id) ∧
    (create_user emptyDb "solo" "solo@example.com" "pw" none none "cd" 3).1.user_roles
      = emptyDb.user_roles := by
  have h := C9_create_user_ignores_role_failure emptyDb "solo" "solo@example.com"
    "pw" none none "cd" 3
    (by intro u hu; simp [emptyDb] at hu)
    (by rfl)
  exact ⟨h.1, h.2.2⟩

/-! ## Claim C5 -/

/-- C5 (amended): every session row created by `create_session` has
`expires_at` equal to `created_at` plus the requested duration, and the
expiry is strictly in the future at creation whenever the requested
duration is positive (in particular for the default 24 hours); a
nonpositive duration places the expiry at or before creation. -/
theorem C5_create_session_expiry (st : DbState) (user_id : Nat)
    (device_info ip_address : Option String) (duration_hours : Int)
    (session_id : String) (now : Int)
    (huser : ∃ u ∈ st.users, u.id = user_id) :
    ∃ st2, create_session st user_id device_info ip_address duration_hours
        session_id now = Except.ok (st2, session_id) ∧
      st2.sessions = st.sessions ++
        [newSessionRow user_id device_info ip_address duration_hours session_id now] ∧
      (newSessionRow user_id device_info ip_address duration_hours session_id now).expires_at
        = (newSessionRow user_id device_info ip_address duration_hours session_id now).created_at
            + 3600 * duration_hours ∧
      (0 < duration_hours →
        (newSessionRow user_id device_info ip_address duration_hours session_id now).created_at
          < (newSessionRow user_id device_info ip_address duration_hours session_id now).expires_at) := by
  obtain ⟨u, hu, hid⟩ := huser
  have hany : st.users.any (fun v => v.id == user_id) = true :=
    List.any_eq_true.mpr ⟨u, hu, by simp [hid]⟩
  have htouch : ((fun v : UserRow => v.id == user_id) ∘ touchLastLogin user_id now)
      = (fun v : UserRow => v.id == user_id) := by
    funext v
    simp only [Function.comp]
    unfold touchLastLogin
    split <;> rfl
  have hfk : (st.users.map (touchLastLogin user_id now)).any
      (fun v => v.id == user_id) = true := by
    rw [List.any_map, htouch]
    exact hany
  refine ⟨{ st with
    sessions := st.sessions ++
      [newSessionRow user_id device_info ip_address duration_hours session_id now],
    users := st.users.map (touchLastLogin user_id now),
    security_logs := st.security_logs ++
      [{ id := st.next_log_id, user_id := some user_id, event_type := "login",
         ip_address := ip_address, user_agent := none, success := true,
         failure_reason := none, metadata := none, created_at := now }],
    next_log_id := st.next_log_id + 1 }, ?_, rfl, rfl, ?_⟩
  · unfold create_session
    simp only [hany, if_true]
    simp only [log_security_event, fkUserOk, hfk, if_true]
    rfl
  · intro hdur
    simp only [newSessionRow]
    omega

/-- Witness for C5 (amended): a 24-hour session for the stored user. -/
theorem C5_create_session_expiry_witness :
    (∃ u ∈ stJohn.users, u.id = 1) ∧
    (∃ st2, create_session stJohn 1 none none 24 "tok" 50 =
        Except.ok (st2, "tok") ∧
      st2.sessions = stJohn.sessions ++ [newSessionRow 1 none none 24 "tok" 50] ∧
      (newSessionRow 1 none none 24 "tok" 50).expires_at
        = (newSessionRow 1 none none 24 "tok" 50).created_at + 3600 * 24 ∧
      (0 < (24 : Int) → (newSessionRow 1 none none 24 "tok" 50).created_at
        < (newSessionRow 1 none none 24 "tok" 50).expires_at)) := by
  have hu : ∃ u ∈ stJohn.users, u.id = 1 :=
    ⟨johnRow, List.mem_singleton_self _, rfl⟩
  exact ⟨hu, C5_create_session_expiry stJohn 1 none none 24 "tok" 50 hu⟩

/-- C5 as stated is false: a session created with duration 0 (as the int
argument permits) has its expiry exactly at creation, not in the future. -/
theorem C5_counterexample :
    ¬ (∀ (st : DbState) (uid : Nat) (di ip : Option String) (dur : Int)
         (sid : String) (now : Int) (st2 : DbState) (tok : String),
        create_session st uid di ip dur sid now = Except.ok (st2, tok) →
        ∀ srow ∈ st2.sessions,
          srow.expires_at = srow.created_at + 3600 * dur ∧
          srow.created_at < srow.expires_at) := by
  intro hall
  have heq : create_session stJohn 1 none none 0 "sid" 100 =
      Except.ok (stJohnAfterSession, "sid") := by rfl
  have h := hall stJohn 1 none none 0 "sid" 100 stJohnAfterSession "sid" heq
    (newSessionRow 1 none none 0 "sid" 100) (List.mem_singleton_self _)
  have hlt := h.2
  simp only [newSessionRow] at hlt
  omega

/-! ## Claim C7 -/

/-- C7 (amended): an unknown role name makes `assign_role_to_user` return
false with `user_roles` unchanged.  A role name resolving to a stored role
row yields true and an upsert — the row for the `(user, role)` pair is
replaced, preserving the at-most-one-row-per-pair primary-key invariant —
provided `user_id` and `assigned_by` reference stored users; when either
reference is dangling, the foreign-key `IntegrityError` is swallowed and
the call returns false with `user_roles` unchanged. -/
theorem C7_assign_role_to_user_spec (st : DbState) (user_id : Nat)
    (role_name : String) (assigned_by : Nat) (now : Int) :
    ((∀ r ∈ st.roles, r.name ≠ role_name) →
      assign_role_to_user st user_id role_name assigned_by now = (st, false)) ∧
    (∀ role, st.roles.find? (fun r => r.name == role_name) = some role →
      (∃ u ∈ st.users, u.id = user_id) →
      (∃ u ∈ st.users, u.id = assigned_by) →
      assign_role_to_user st user_id role_name assigned_by now =
        ({ st with user_roles :=
            (st.user_roles.filter
              (fun ur => !(ur.user_id == user_id && ur.role_id == role.id)) ++
            [{ user_id := user_id, role_id := role.id,
               assigned_by := some assigned_by, assigned_at := now,
               expires_at := none }]) }, true)) ∧
    (∀ role, st.roles.find? (fun r => r.name == role_name) = some role →
      (st.users.any (fun u => u.id == user_id) &&
        st.users.any (fun u => u.id == assigned_by)) = false →
      assign_role_to_user st user_id role_name assigned_by now = (st, false)) ∧
    (UserRolesKeyed st.user_roles →
      UserRolesKeyed
        (assign_role_to_user st user_id role_name assigned_by now).1.user_roles) := by
  refine ⟨?_, ?_, ?_, ?_⟩
  · intro h
    have hnone : st.roles.find? (fun r => r.name == role_name) = none := by
      apply List.find?_eq_none.mpr
      intro r hr
      simpa using h r hr
    unfold assign_role_to_user
    rw [hnone]
  · intro role hrole hu ha
    obtain ⟨u, humem, huid⟩ := hu
    obtain ⟨v, hvmem, hvid⟩ := ha
    have h1 : st.users.any (fun w => w.id == user_id) = true :=
      List.any_eq_true.mpr ⟨u, humem, by simp [huid]⟩
    have h2 : st.users.any (fun w => w.id == assigned_by) = true :=
      List.any_eq_true.mpr ⟨v, hvmem, by simp [hvid]⟩
    unfold assign_role_to_user
    rw [hrole]
    simp only [h1, h2, Bool.and_self, if_true]
  · intro role hrole hcond
    unfold assign_role_to_user
    rw [hrole]
    simp only [hcond, Bool.false_eq_true, if_false]
  · intro hkeyed
    unfold assign_role_to_user
    cases hrole : st.roles.find? (fun r => r.name == role_name) with
    | none => exact hkeyed
    | some role =>
      by_cases hcond : (st.users.any (fun u => u.id == user_id) &&
          st.users.any (fun u => u.id == assigned_by)) = true
      · simp only [hcond, if_true]
        unfold UserRolesKeyed at hkeyed ⊢
        rw [List.pairwise_append]
        refine ⟨hkeyed.sublist (List.filter_sublist _), List.pairwise_singleton _ _, ?_⟩
        intro a hmem b hb
        simp only [List.mem_singleton] at hb
        subst hb
        have hpred := List.of_mem_filter hmem
        simp only [Bool.not_eq_true', Bool.and_eq_true, beq_iff_eq,
          not_and] at hpred ⊢
        intro hid
        intro hrid
        rcases Bool.and_eq_false_iff.mp hpred with hl | hr
        · exact absurd hid (by simpa using (beq_eq_false_iff_ne.mp hl))
        · exact absurd hrid (by simpa using (beq_eq_false_iff_ne.mp hr))
      · simp only [Bool.not_eq_true] at hcond
        simp only [hcond, Bool.false_eq_true, if_false]
        exact hkeyed

/-- Witness for C7 (amended): assigning the existing role admin to the
stored user replaces the (1, 1) pair and returns true. -/
theorem C7_assign_role_to_user_spec_witness :
    (stJohn.roles.find? (fun r => r.name == "admin") =
      some ⟨1, "admin", some "Full system administrator"⟩) ∧
    assign_role_to_user stJohn 1 "admin" 1 5 =
      ({ stJohn with user_roles :=
          (stJohn.user_roles.filter
            (fun ur => !(ur.user_id == 1 && ur.role_id == 1)) ++
          [{ user_id := 1, role_id := 1, assigned_by := some 1,
             assigned_at := 5, expires_at := none }]) }, true) := by
  have hrole : stJohn.roles.find? (fun r => r.name == "admin") =
      some ⟨1, "admin", some "Full system administrator"⟩ := rfl
  refine ⟨hrole, ?_⟩
  exact (C7_assign_role_to_user_spec stJohn 1 "admin" 1 5).2.1
    ⟨1, "admin", some "Full system administrator"⟩ hrole
    ⟨johnRow, List.mem_singleton_self _, rfl⟩
    ⟨johnRow, List.mem_singleton_self _, rfl⟩

/-- C7 as stated is false: on the freshly initialized database with no
stored users, the role name user exists, yet the call returns false — the
foreign-key violation on `user_id` is caught and reported as failure. -/
theorem C7_counterexample :
    ¬ (∀ (st : DbState) (user_id : Nat) (role_name : String)
         (assigned_by : Nat) (now : Int),
        (∃ r ∈ st.roles, r.name = role_name) →
        (assign_role_to_user st user_id role_name assigned_by now).2 = true) := by
  intro hall
  have hr : ∃ r ∈ initDb.roles, r.name = "user" :=
    ⟨⟨3, "user", some "Standard user privileges"⟩, by decide, rfl⟩
  have h := hall initDb 1 "user" 1 0 hr
  rw [show (assign_role_to_user initDb 1 "user" 1 0).2 = false from rfl] at h
  exact Bool.false_ne_true h
